import Mathlib

/-!
Verification of the caius-padel-ranking core: a shallow embedding of the
data model (`models.py`), the Elo rating engine (`elo_calculator.py`), the
service workflows (`services.py`) and an in-memory model of the persistence
boundary (`database.py`, whose Supabase calls are modelled as operations on
lists kept in insertion order).  Python `float` arithmetic is idealised as
real-number arithmetic; Python's `round` (round-half-to-even) is modelled
exactly by `pyRound`.  Errors (`ValueError`) are modelled as `Except String`,
where the string is the exact message raised by the source.
-/

open Real

/-- Embedding of `models.Player` (`created_at` is display-only and omitted). -/
structure Player where
  player_id : Nat
  name : String
  current_elo : Int
  games_played : Nat
  wins : Nat
  losses : Nat
  deriving Repr, DecidableEq

/-- Embedding of `models.Match` (`created_at` omitted).  `team1_score` and
`team2_score` are declared `Optional[int]` in the source dataclass. -/
structure Match where
  match_id : Nat
  match_date : String
  team1_player1_id : Nat
  team1_player2_id : Nat
  team2_player1_id : Nat
  team2_player2_id : Nat
  team1_avg_rating_before : Int
  team2_avg_rating_before : Int
  winning_team : Int
  team1_score : Option Int
  team2_score : Option Int
  deriving Repr, DecidableEq

/-- Embedding of `models.RatingChange` (`recorded_at` is omitted: the position
in the history list models the recording order, oldest first). -/
structure RatingChange where
  history_id : Nat
  player_id : Nat
  match_id : Nat
  old_rating : Int
  new_rating : Int
  rating_change : Int
  deriving Repr, DecidableEq

/-- In-memory model of the persistence boundary (the three Supabase tables of
`database.py`).  Rows are kept in insertion order; ids are assigned
sequentially by the store, modelling the database's id assignment. -/
structure DB where
  players : List Player
  matchList : List Match
  history : List RatingChange
  nextPlayerId : Nat
  nextMatchId : Nat
  nextHistoryId : Nat
  deriving Repr, DecidableEq

/-- The empty store. -/
def DB.empty : DB :=
  { players := [], matchList := [], history := [], nextPlayerId := 0,
    nextMatchId := 0, nextHistoryId := 0 }

/-- Embeds `SupabasePlayerRepository.get_by_name`: the `eq('name', name)` query,
returning the first matching row. -/
def get_by_name (name : String) (db : DB) : Option Player :=
  db.players.find? (fun p => p.name = name)

/-- Embeds `SupabasePlayerRepository.create`: inserts a row; the store assigns the
next id. -/
def player_create (p : Player) (db : DB) : Player × DB :=
  let p' : Player := { p with player_id := db.nextPlayerId }
  (p', { db with players := db.players ++ [p'], nextPlayerId := db.nextPlayerId + 1 })

/-- Embeds `SupabasePlayerRepository.update`: overwrites the row whose `player_id`
matches. -/
def player_update (p : Player) (db : DB) : DB :=
  { db with players := db.players.map (fun q => if q.player_id = p.player_id then p else q) }

/-- Insert a player into a list sorted by `current_elo` descending, after all
players of greater or equal rating (so that earlier-inserted rows precede
later ones on ties). -/
def insertByElo (p : Player) : List Player → List Player
  | [] => [p]
  | q :: rest =>
      if q.current_elo ≤ p.current_elo then p :: q :: rest
      else q :: insertByElo p rest

/-- Stable sort by `current_elo` descending over the insertion-ordered rows:
the model of the external database's `order('current_elo', desc=True)` in
`SupabasePlayerRepository.get_all`.  The tie order (insertion order) is the
stable-sort reading the spec documents for the external store. -/
def sortByElo (l : List Player) : List Player :=
  l.foldr insertByElo []

/-- Embeds `SupabasePlayerRepository.get_all`: all players ordered by rating
descending. -/
def get_all (db : DB) : List Player :=
  sortByElo db.players

/-- Embeds `SupabaseMatchRepository.create`: inserts a match row; the store assigns
the next id. -/
def match_create (m : Match) (db : DB) : Match × DB :=
  let m' : Match := { m with match_id := db.nextMatchId }
  (m', { db with matchList := db.matchList ++ [m'], nextMatchId := db.nextMatchId + 1 })

/-- Embeds `SupabaseRatingHistoryRepository.create`: appends a history row; the store
assigns the next id (append position models `recorded_at` order). -/
def history_create (rc : RatingChange) (db : DB) : RatingChange × DB :=
  let rc' : RatingChange := { rc with history_id := db.nextHistoryId }
  (rc', { db with history := db.history ++ [rc'], nextHistoryId := db.nextHistoryId + 1 })

/-- Embeds `SupabaseRatingHistoryRepository.get_by_player`: rows of one player,
most-recent-first (`order('recorded_at', desc=True)`), truncated to `limit`. -/
def history_get_by_player (player_id : Nat) (limit : Nat) (db : DB) : List RatingChange :=
  ((db.history.filter (fun rc => rc.player_id = player_id)).reverse).take limit

/-- Embeds `EloCalculator.expected_score`: `1 / (1 + 10 ** ((rating_b - rating_a) / 400))`. -/
noncomputable def expected_score (rating_a rating_b : ℝ) : ℝ :=
  1 / (1 + (10 : ℝ) ^ ((rating_b - rating_a) / 400))

/-- Embeds `EloCalculator.calculate_rating_change`:
`k_factor * (actual_score - expected_score)`. -/
noncomputable def calculate_rating_change (k_factor current_rating opponent_rating actual_score : ℝ) : ℝ :=
  k_factor * (actual_score - expected_score current_rating opponent_rating)

/-- Embeds `EloCalculator.calculate_team_rating`: mean of the two ratings. -/
noncomputable def calculate_team_rating (player1_rating player2_rating : ℝ) : ℝ :=
  (player1_rating + player2_rating) / 2

/-- The dict returned by `EloCalculator.calculate_match_outcome`. -/
structure MatchOutcome where
  team1_rating : ℝ
  team2_rating : ℝ
  team1_expected : ℝ
  team2_expected : ℝ
  team1_change : ℝ
  team2_change : ℝ

/-- Embeds `EloCalculator.calculate_match_outcome`. -/
noncomputable def calculate_match_outcome (k_factor : ℝ)
    (team1_player1_rating team1_player2_rating team2_player1_rating team2_player2_rating : ℝ)
    (team1_won : Bool) : MatchOutcome :=
  let team1_rating := calculate_team_rating team1_player1_rating team1_player2_rating
  let team2_rating := calculate_team_rating team2_player1_rating team2_player2_rating
  let team1_expected := expected_score team1_rating team2_rating
  let team2_expected := 1 - team1_expected
  let team1_actual : ℝ := if team1_won then 1 else 0
  let team2_actual : ℝ := 1 - team1_actual
  { team1_rating := team1_rating
    team2_rating := team2_rating
    team1_expected := team1_expected
    team2_expected := team2_expected
    team1_change := calculate_rating_change k_factor team1_rating team2_rating team1_actual
    team2_change := calculate_rating_change k_factor team2_rating team1_rating team2_actual }

open Classical in
/-- Python 3's `round` on a real argument: nearest integer, halves to the even
neighbour. -/
noncomputable def pyRound (x : ℝ) : ℤ :=
  if x - ⌊x⌋ < 1/2 then ⌊x⌋
  else if 1/2 < x - ⌊x⌋ then ⌊x⌋ + 1
  else if Even ⌊x⌋ then ⌊x⌋ else ⌊x⌋ + 1

/-- Embeds `PadelEloService.add_player` (the service's `initial_rating` passed
explicitly; the deployment uses 1500). -/
def add_player (initial_rating : Int) (name : String) (db : DB) : Except String Player × DB :=
  match get_by_name name db with
  | some _ => (.error ("Player '" ++ name ++ "' already exists"), db)
  | none =>
      let (p, db') := player_create
        { player_id := 0, name := name, current_elo := initial_rating,
          games_played := 0, wins := 0, losses := 0 } db
      (.ok p, db')

/-- Embeds `PadelEloService.get_player`. -/
def get_player (name : String) (db : DB) : Option Player :=
  get_by_name name db

/-- Embeds `PadelEloService.get_rankings`: `player_repo.get_all()[:limit]` (the
source's default for `limit` is 10). -/
def get_rankings (limit : Nat) (db : DB) : List Player :=
  (get_all db).take limit

/-- One iteration of the `for player, rating_change, won in players_to_update`
loop of `PadelEloService.record_match`: round the new rating, bump the
aggregates, persist the player, append the history row. -/
noncomputable def applyPlayerUpdate (p : Player) (rating_change : ℝ) (won : Bool)
    (matchId : Nat) (db : DB) : DB :=
  let old_rating := p.current_elo
  let new_rating := pyRound ((old_rating : ℝ) + rating_change)
  let p' : Player :=
    { p with current_elo := new_rating,
             games_played := p.games_played + 1,
             wins := if won then p.wins + 1 else p.wins,
             losses := if won then p.losses else p.losses + 1 }
  let db1 := player_update p' db
  (history_create
    { history_id := 0, player_id := p.player_id, match_id := matchId,
      old_rating := old_rating, new_rating := new_rating,
      rating_change := pyRound rating_change } db1).2

/-- The post-validation phase of `PadelEloService.record_match`: compute the
outcome, create the match row, then update the four players and append their
history rows in slot order. -/
noncomputable def commitMatch (k_factor : ℝ) (team1_p1 team1_p2 team2_p1 team2_p2 : Player)
    (winning_team : Int) (match_date : String)
    (team1_score team2_score : Option Int) (db : DB) : Match × DB :=
  let team1_won : Bool := winning_team = 1
  let outcome := calculate_match_outcome k_factor
    (team1_p1.current_elo : ℝ) (team1_p2.current_elo : ℝ)
    (team2_p1.current_elo : ℝ) (team2_p2.current_elo : ℝ)
    team1_won
  let (created_match, db1) := match_create
    { match_id := 0, match_date := match_date,
      team1_player1_id := team1_p1.player_id,
      team1_player2_id := team1_p2.player_id,
      team2_player1_id := team2_p1.player_id,
      team2_player2_id := team2_p2.player_id,
      team1_avg_rating_before := pyRound outcome.team1_rating,
      team2_avg_rating_before := pyRound outcome.team2_rating,
      winning_team := winning_team,
      team1_score := team1_score, team2_score := team2_score } db
  let db2 := applyPlayerUpdate team1_p1 outcome.team1_change team1_won
    created_match.match_id db1
  let db3 := applyPlayerUpdate team1_p2 outcome.team1_change team1_won
    created_match.match_id db2
  let db4 := applyPlayerUpdate team2_p1 outcome.team2_change (!team1_won)
    created_match.match_id db3
  let db5 := applyPlayerUpdate team2_p2 outcome.team2_change (!team1_won)
    created_match.match_id db4
  (created_match, db5)

/-- Embeds `PadelEloService.record_match`.  The `k_factor` of the service's
`EloCalculator` is a parameter (the deployment uses 32).  Validation follows
the source order: winning team, duplicate names, unresolved names; any
failure returns the store unchanged (the source performs no write before the
first `match_repo.create`). -/
noncomputable def record_match (k_factor : ℝ)
    (team1_player1_name team1_player2_name team2_player1_name team2_player2_name : String)
    (winning_team : Int) (match_date : String)
    (team1_score team2_score : Option Int) (db : DB) : Except String Match × DB :=
  if ¬ (winning_team = 1 ∨ winning_team = 2) then
    (.error "winning_team must be 1 or 2", db)
  else if ¬ ([team1_player1_name, team1_player2_name,
              team2_player1_name, team2_player2_name].Nodup) then
    (.error "A player cannot appear twice in the same match", db)
  else
    match get_by_name team1_player1_name db, get_by_name team1_player2_name db,
          get_by_name team2_player1_name db, get_by_name team2_player2_name db with
    | some team1_p1, some team1_p2, some team2_p1, some team2_p2 =>
        let (created_match, db5) := commitMatch k_factor team1_p1 team1_p2 team2_p1 team2_p2
          winning_team match_date team1_score team2_score db
        (.ok created_match, db5)
    | _, _, _, _ =>
        let names := [team1_player1_name, team1_player2_name,
                      team2_player1_name, team2_player2_name]
        let missing := (names.zip [get_by_name team1_player1_name db,
            get_by_name team1_player2_name db, get_by_name team2_player1_name db,
            get_by_name team2_player2_name db]).filterMap
          (fun x => if x.2.isNone then some x.1 else none)
        (.error ("Players not found: " ++ String.intercalate ", " missing), db)

/-- Embeds `PadelEloService.get_player_history`. -/
def get_player_history (name : String) (limit : Nat) (db : DB) : Except String (List RatingChange) :=
  match get_by_name name db with
  | none => .error ("Player '" ++ name ++ "' not found")
  | some p => .ok (history_get_by_player p.player_id limit db)

/-- Embeds `Match.match_score`: winner-first formatted score; `none` models the
`AttributeError` the source's `getattr` would raise for a winning-team value
outside `{1, 2}` (never reached for recorded matches). -/
def match_score (m : Match) : Option String :=
  if m.winning_team = 1 then
    match m.team1_score, m.team2_score with
    | some w, some l => some (toString w ++ " - " ++ toString l)
    | _, _ => some "N/A"
  else if m.winning_team = 2 then
    match m.team2_score, m.team1_score with
    | some w, some l => some (toString w ++ " - " ++ toString l)
    | _, _ => some "N/A"
  else none

/-- Score slot of the match's winning team (meaningful for recorded matches,
whose `winning_team` is 1 or 2). -/
def winnerScore (m : Match) : Option Int :=
  if m.winning_team = 1 then m.team1_score else m.team2_score

/-- Score slot of the match's losing team. -/
def loserScore (m : Match) : Option Int :=
  if m.winning_team = 1 then m.team2_score else m.team1_score

/-- A player's `RatingChangeRecord`s in chronological (recording) order. -/
def playerHistoryChron (db : DB) (pid : Nat) : List RatingChange :=
  db.history.filter (fun rc => rc.player_id = pid)

/-- Replaying a chronological list of history records from a seed rating:
the rating after the replay is the `new_rating` of the last record, or the
seed when there is no record.  (Stated from the spec's description of
trajectory reconstruction.) -/
def replayFinal (seed : Int) (l : List RatingChange) : Int :=
  match l.getLast? with
  | some rc => rc.new_rating
  | none => seed

/-- The delta stored for a team never sits exactly halfway between two
integers (the property that makes Python's bankers rounding translation
invariant here). -/
def noTie (x : ℝ) : Prop := ∀ j : ℤ, 2 * x ≠ 2 * (j : ℝ) + 1

/-- Row ids of the player table are pairwise distinct. -/
def IdsNodup (db : DB) : Prop := (db.players.map Player.player_id).Nodup

/-- Every stored player id is below the store's next fresh id. -/
def IdsLt (db : DB) : Prop := ∀ p ∈ db.players, p.player_id < db.nextPlayerId

/-- Every stored player satisfies `games_played == wins + losses`. -/
def GamesEq (db : DB) : Prop := ∀ p ∈ db.players, p.games_played = p.wins + p.losses

/-- Every stored player's current rating is reproduced by replaying its
history from the configured initial rating. -/
def ReplayOk (init : Int) (db : DB) : Prop :=
  ∀ p ∈ db.players, replayFinal init (playerHistoryChron db p.player_id) = p.current_elo

/-- Store states reachable from the empty store through the service
operations as deployed (`EloCalculator(k_factor=32)`, configured
`initial_rating`). -/
inductive Reachable (init : Int) : DB → Prop
  | empty : Reachable init DB.empty
  | add_step (db : DB) (name : String) (p : Player) (db' : DB) :
      Reachable init db → add_player init name db = (.ok p, db') →
      Reachable init db'
  | record_step (db : DB) (n1 n2 n3 n4 : String) (wt : Int) (d : String)
      (s1 s2 : Option Int) (m : Match) (db' : DB) :
      Reachable init db →
      record_match 32 n1 n2 n3 n4 wt d s1 s2 db = (.ok m, db') →
      Reachable init db'

/-- Total number of games played over a list of players. -/
def sumGames (l : List Player) : Nat := (l.map Player.games_played).sum

/-- A concrete store with four players at rating 1500. -/
def db0 : DB :=
  { players := [⟨0, "A", 1500, 0, 0, 0⟩, ⟨1, "B", 1500, 0, 0, 0⟩,
                ⟨2, "C", 1500, 0, 0, 0⟩, ⟨3, "D", 1500, 0, 0, 0⟩],
    matchList := [], history := [],
    nextPlayerId := 4, nextMatchId := 0, nextHistoryId := 0 }

/-- The match created by recording `A,B vs C,D, team 1 wins` on `db0`. -/
def m0 : Match :=
  { match_id := 0, match_date := "2025-01-01",
    team1_player1_id := 0, team1_player2_id := 1,
    team2_player1_id := 2, team2_player2_id := 3,
    team1_avg_rating_before := 1500, team2_avg_rating_before := 1500,
    winning_team := 1, team1_score := none, team2_score := none }

/-- The store after recording that match on `db0`: winners move to 1516,
losers to 1484, one game each, and four history rows. -/
def db0' : DB :=
  { players := [⟨0, "A", 1516, 1, 1, 0⟩, ⟨1, "B", 1516, 1, 1, 0⟩,
                ⟨2, "C", 1484, 1, 0, 1⟩, ⟨3, "D", 1484, 1, 0, 1⟩],
    matchList := [m0],
    history := [⟨0, 0, 0, 1500, 1516, 16⟩, ⟨1, 1, 0, 1500, 1516, 16⟩,
                ⟨2, 2, 0, 1500, 1484, -16⟩, ⟨3, 3, 0, 1500, 1484, -16⟩],
    nextPlayerId := 4, nextMatchId := 1, nextHistoryId := 4 }

/-- A concrete store with eleven players (more than the default ranking
limit of 10). -/
def db11 : DB :=
  { players := (List.range 11).map (fun i => ⟨i, "P" ++ toString i, 1500, 0, 0, 0⟩),
    matchList := [], history := [],
    nextPlayerId := 11, nextMatchId := 0, nextHistoryId := 0 }

/-! ## Theorems -/

/-- Positivity of the base-10 power. -/
theorem rpow_ten_pos (x : ℝ) : 0 < (10 : ℝ) ^ x :=
  Real.rpow_pos_of_pos (by norm_num) x

/-- Claim C4: for all ratings `a` and `b`,
`expected_score a b + expected_score b a = 1`, and `expected_score r r = 0.5`
for every rating `r`. -/
theorem claim_C4_expected_score_symmetric (a b r : ℝ) :
    expected_score a b + expected_score b a = 1 ∧ expected_score r r = 1/2 := by
  constructor
  · unfold expected_score
    have h1 : (a - b) / 400 = -((b - a) / 400) := by ring
    rw [h1, Real.rpow_neg (by norm_num : (0:ℝ) ≤ 10)]
    have ht : (0:ℝ) < (10 : ℝ) ^ ((b - a) / 400) := rpow_ten_pos _
    field_simp
    ring
  · unfold expected_score
    norm_num

/-- Claim C5: `expected_score` equals the logistic paired-comparison formula
`1 / (1 + 10 ^ ((b - a) / 400))` and its value lies strictly between 0
and 1. -/
theorem claim_C5_expected_score_formula_range (a b : ℝ) :
    expected_score a b = 1 / (1 + (10 : ℝ) ^ ((b - a) / 400)) ∧
      0 < expected_score a b ∧ expected_score a b < 1 := by
  have ht : (0:ℝ) < (10 : ℝ) ^ ((b - a) / 400) := rpow_ten_pos _
  refine ⟨rfl, ?_, ?_⟩
  · unfold expected_score
    positivity
  · unfold expected_score
    rw [div_lt_one (by linarith)]
    linarith

/-- Rounding an integer returns it unchanged. -/
theorem pyRound_intCast (n : ℤ) : pyRound (n : ℝ) = n := by
  unfold pyRound
  rw [Int.floor_intCast]
  norm_num

/-- Bankers rounding commutes with adding an integer as long as the real
summand is not exactly halfway between two integers. -/
theorem pyRound_int_add (m : ℤ) (x : ℝ) (hx : noTie x) :
    pyRound ((m : ℝ) + x) = m + pyRound x := by
  have hfl : ⌊(m : ℝ) + x⌋ = m + ⌊x⌋ := by
    rw [add_comm ((m:ℝ)) x, Int.floor_add_int, add_comm]
  have hfr : (m : ℝ) + x - ((m + ⌊x⌋ : ℤ) : ℝ) = x - ⌊x⌋ := by
    push_cast
    ring
  unfold pyRound
  rw [hfl, hfr]
  split_ifs with h1 h2 h3 h4 <;> try ring
  all_goals
    exfalso
    have hhalf : x - ⌊x⌋ = 1/2 := le_antisymm (not_lt.1 h2) (not_lt.1 h1)
    exact hx ⌊x⌋ (by linarith)

/-- Raising `10 ^ (n / 800)` to the 800th power recovers `10 ^ n`. -/
theorem rpow_div800_pow (n : ℤ) :
    ((10 : ℝ) ^ ((n : ℝ) / 800)) ^ (800 : ℕ) = (10 : ℝ) ^ n := by
  rw [← Real.rpow_natCast ((10 : ℝ) ^ ((n : ℝ) / 800)) 800,
    ← Real.rpow_mul (by norm_num : (0:ℝ) ≤ 10)]
  norm_num

/-- Core no-tie fact: for an integer-valued rating gap, `64 / (1 + 10 ^ (n/800))`
is never an odd integer (else `10 ^ (n/800)` would be a ratio of two odd
integers whose 800th power is a power of ten, which parity forbids). -/
theorem tie_free (n j : ℤ) :
    (64 : ℝ) / (1 + (10 : ℝ) ^ ((n : ℝ) / 800)) ≠ 2 * (j : ℝ) + 1 := by
  intro h
  set t := (10 : ℝ) ^ ((n : ℝ) / 800) with ht
  have ht0 : 0 < t := rpow_ten_pos _
  have h1t : (0:ℝ) < 1 + t := by linarith
  have hc_pos : (0:ℝ) < 2 * (j:ℝ) + 1 := by
    rw [← h]; positivity
  have hc_lt : 2 * (j:ℝ) + 1 < 64 := by
    rw [← h]
    rw [div_lt_iff h1t]
    nlinarith
  have hj0 : 0 ≤ j := by
    by_contra hneg
    push_neg at hneg
    have hj1 : j ≤ -1 := by omega
    have : (j:ℝ) ≤ -1 := by exact_mod_cast hj1
    linarith
  have hj31 : j ≤ 31 := by
    by_contra hgt
    push_neg at hgt
    have hj32 : (32:ℤ) ≤ j := by omega
    have : (32:ℝ) ≤ (j:ℝ) := by exact_mod_cast hj32
    linarith
  -- solve for t as a ratio of odd integers
  have hc_ne : (2 * (j:ℝ) + 1) ≠ 0 := ne_of_gt hc_pos
  have ht_eq : t = ((63 - 2*j : ℤ) : ℝ) / ((2*j + 1 : ℤ) : ℝ) := by
    have h64 : (64:ℝ) = (2 * (j:ℝ) + 1) * (1 + t) := by
      rw [div_eq_iff (ne_of_gt h1t)] at h
      linarith [h]
    push_cast
    rw [eq_div_iff (by exact_mod_cast hc_ne)]
    linarith [h64]
  -- raise to the 800th power
  have hb_ne : ((2*j + 1 : ℤ) : ℝ) ≠ 0 := by exact_mod_cast hc_ne
  have hpow : ((63 - 2*j : ℤ) : ℝ) ^ (800:ℕ) = ((2*j + 1 : ℤ) : ℝ) ^ (800:ℕ) * (10:ℝ) ^ n := by
    have h800 := rpow_div800_pow n
    rw [← ht, ht_eq, div_pow, div_eq_iff (pow_ne_zero _ hb_ne)] at h800
    exact h800.trans (mul_comm _ _)
  have hodd_a : Odd (63 - 2*j) := ⟨31 - j, by ring⟩
  have hodd_b : Odd (2*j + 1) := ⟨j, by ring⟩
  obtain ⟨m, rfl | rfl⟩ := Int.eq_nat_or_neg n
  · -- nonnegative exponent: a^800 = b^800 * 10^m over the integers
    have h10 : (10:ℝ) ^ ((m:ℕ):ℤ) = ((10 ^ m : ℤ) : ℝ) := by
      rw [zpow_natCast]
      push_cast
      ring
    rw [h10] at hpow
    have hint : (63 - 2*j) ^ (800:ℕ) = (2*j + 1) ^ (800:ℕ) * 10 ^ m := by
      exact_mod_cast hpow
    rcases Nat.eq_zero_or_pos m with hm | hm
    · subst hm
      simp at hint
      have ha_pos : (0:ℤ) < 63 - 2*j := by omega
      have hb_pos : (0:ℤ) < 2*j + 1 := by omega
      have hab : 63 - 2*j = 2*j + 1 := by
        rcases lt_trichotomy (63 - 2*j) (2*j + 1) with h' | h' | h'
        · have := pow_lt_pow_left h' (le_of_lt ha_pos) (by norm_num : (800:ℕ) ≠ 0)
          exact absurd hint (ne_of_lt this)
        · exact h'
        · have := pow_lt_pow_left h' (le_of_lt hb_pos) (by norm_num : (800:ℕ) ≠ 0)
          exact absurd hint.symm (ne_of_lt this)
      omega
    · -- positive exponent: left side odd, right side even
      obtain ⟨m', rfl⟩ : ∃ m', m = m' + 1 := ⟨m - 1, by omega⟩
      have heven : Even ((2*j + 1) ^ (800:ℕ) * 10 ^ (m' + 1)) :=
        Even.mul_left ⟨5 * 10 ^ m', by ring⟩ _
      have hodd : Odd ((63 - 2*j) ^ (800:ℕ)) := hodd_a.pow
      rw [hint] at hodd
      exact (Int.even_iff_not_odd.1 heven) hodd
  · -- negative exponent: a^800 * 10^m = b^800 over the integers
    rw [zpow_neg, zpow_natCast, ← div_eq_mul_inv,
      eq_div_iff (by positivity : ((10:ℝ) ^ (m:ℕ)) ≠ 0)] at hpow
    have h10 : (10:ℝ) ^ (m:ℕ) = ((10 ^ m : ℤ) : ℝ) := by
      push_cast
      ring
    rw [h10] at hpow
    have hint : (63 - 2*j) ^ (800:ℕ) * 10 ^ m = (2*j + 1) ^ (800:ℕ) := by
      exact_mod_cast hpow
    rcases Nat.eq_zero_or_pos m with hm | hm
    · subst hm
      simp at hint
      have ha_pos : (0:ℤ) < 63 - 2*j := by omega
      have hb_pos : (0:ℤ) < 2*j + 1 := by omega
      have hab : 63 - 2*j = 2*j + 1 := by
        rcases lt_trichotomy (63 - 2*j) (2*j + 1) with h' | h' | h'
        · have := pow_lt_pow_left h' (le_of_lt ha_pos) (by norm_num : (800:ℕ) ≠ 0)
          exact absurd hint (ne_of_lt this)
        · exact h'
        · have := pow_lt_pow_left h' (le_of_lt hb_pos) (by norm_num : (800:ℕ) ≠ 0)
          exact absurd hint.symm (ne_of_lt this)
      omega
    · obtain ⟨m', rfl⟩ : ∃ m', m = m' + 1 := ⟨m - 1, by omega⟩
      have heven : Even ((63 - 2*j) ^ (800:ℕ) * 10 ^ (m' + 1)) :=
        Even.mul_left ⟨5 * 10 ^ m', by ring⟩ _
      have hodd : Odd ((2*j + 1) ^ (800:ℕ)) := hodd_b.pow
      rw [← hint] at hodd
      exact (Int.even_iff_not_odd.1 heven) hodd

/-- Projection `team1_change` of the outcome dict, written out. -/
theorem calculate_match_outcome_team1_change (k r1 r2 r3 r4 : ℝ) (w : Bool) :
    (calculate_match_outcome k r1 r2 r3 r4 w).team1_change =
      k * ((if w then (1:ℝ) else 0) -
        1 / (1 + (10:ℝ) ^
          ((calculate_team_rating r3 r4 - calculate_team_rating r1 r2) / 400))) := rfl

/-- Projection `team2_change` of the outcome dict, written out. -/
theorem calculate_match_outcome_team2_change (k r1 r2 r3 r4 : ℝ) (w : Bool) :
    (calculate_match_outcome k r1 r2 r3 r4 w).team2_change =
      k * ((1 - (if w then (1:ℝ) else 0)) -
        1 / (1 + (10:ℝ) ^
          ((calculate_team_rating r1 r2 - calculate_team_rating r3 r4) / 400))) := rfl

/-- Projection `team1_rating` of the outcome dict. -/
theorem calculate_match_outcome_team1_rating (k r1 r2 r3 r4 : ℝ) (w : Bool) :
    (calculate_match_outcome k r1 r2 r3 r4 w).team1_rating =
      calculate_team_rating r1 r2 := rfl

/-- Projection `team2_rating` of the outcome dict. -/
theorem calculate_match_outcome_team2_rating (k r1 r2 r3 r4 : ℝ) (w : Bool) :
    (calculate_match_outcome k r1 r2 r3 r4 w).team2_rating =
      calculate_team_rating r3 r4 := rfl

/-- The rating-gap exponent of four integer-rated players is an integer
over 800. -/
theorem team_exponent_eq (r1 r2 r3 r4 : ℤ) :
    (calculate_team_rating (r3:ℝ) (r4:ℝ) - calculate_team_rating (r1:ℝ) (r2:ℝ)) / 400
      = ((r3 + r4 - r1 - r2 : ℤ) : ℝ) / 800 := by
  unfold calculate_team_rating
  push_cast
  ring

/-- With `k = 32`, a win/loss rating change over an integer-over-800 exponent
never sits exactly halfway between two integers. -/
theorem noTie_rating_change (n : ℤ) (a : ℝ) (ha : a = 0 ∨ a = 1) :
    noTie (32 * (a - 1 / (1 + (10:ℝ) ^ ((n:ℝ) / 800)))) := by
  intro j hj
  have ht0 : 0 < (10:ℝ) ^ ((n:ℝ) / 800) := rpow_ten_pos _
  have h1t : (0:ℝ) < 1 + (10:ℝ) ^ ((n:ℝ) / 800) := by linarith
  rcases ha with rfl | rfl
  · refine tie_free n (-j - 1) ?_
    have he : (64:ℝ) / (1 + (10:ℝ) ^ ((n:ℝ) / 800)) = -(2*(j:ℝ)+1) := by
      rw [div_eq_iff (ne_of_gt h1t)]
      field_simp at hj
      nlinarith [hj]
    rw [he]
    push_cast
    ring
  · refine tie_free n (31 - j) ?_
    have he : (64:ℝ) / (1 + (10:ℝ) ^ ((n:ℝ) / 800)) = 63 - 2*(j:ℝ) := by
      rw [div_eq_iff (ne_of_gt h1t)]
      field_simp at hj
      nlinarith [hj]
    rw [he]
    push_cast
    ring

/-- Both team deltas of a match between integer-rated players under `k = 32`
are tie-free. -/
theorem noTie_match_outcome (r1 r2 r3 r4 : ℤ) (w : Bool) :
    noTie ((calculate_match_outcome 32 (r1:ℝ) (r2:ℝ) (r3:ℝ) (r4:ℝ) w).team1_change) ∧
    noTie ((calculate_match_outcome 32 (r1:ℝ) (r2:ℝ) (r3:ℝ) (r4:ℝ) w).team2_change) := by
  constructor
  · rw [calculate_match_outcome_team1_change, team_exponent_eq r1 r2 r3 r4]
    exact noTie_rating_change _ _ (by cases w <;> simp)
  · rw [calculate_match_outcome_team2_change, team_exponent_eq r3 r4 r1 r2]
    exact noTie_rating_change _ _ (by cases w <;> norm_num)

/-- A successful `record_match` means every validation passed and the result
is exactly the committed match and store. -/
theorem record_match_ok_elim {k : ℝ} {n1 n2 n3 n4 : String} {wt : Int} {d : String}
    {s1 s2 : Option Int} {db db' : DB} {m : Match}
    (h : record_match k n1 n2 n3 n4 wt d s1 s2 db = (.ok m, db')) :
    (wt = 1 ∨ wt = 2) ∧ [n1, n2, n3, n4].Nodup ∧
    ∃ p1 p2 p3 p4, get_by_name n1 db = some p1 ∧ get_by_name n2 db = some p2 ∧
      get_by_name n3 db = some p3 ∧ get_by_name n4 db = some p4 ∧
      (m, db') = commitMatch k p1 p2 p3 p4 wt d s1 s2 db := by
  unfold record_match at h
  split_ifs at h with h1 h2
  · rcases hg1 : get_by_name n1 db with _ | p1
    · rw [hg1] at h
      simp at h
    rcases hg2 : get_by_name n2 db with _ | p2
    · rw [hg1, hg2] at h
      simp at h
    rcases hg3 : get_by_name n3 db with _ | p3
    · rw [hg1, hg2, hg3] at h
      simp at h
    rcases hg4 : get_by_name n4 db with _ | p4
    · rw [hg1, hg2, hg3, hg4] at h
      simp at h
    rw [hg1, hg2, hg3, hg4] at h
    simp only [Except.ok.injEq, Prod.mk.injEq] at h
    refine ⟨h1, h2, p1, p2, p3, p4, rfl, rfl, rfl, rfl, ?_⟩
    rw [← h.1, ← h.2]
  · simp at h
  · simp at h

/-- Committing a match appends exactly four history rows, each satisfying
`new_rating = old_rating + rating_change` (under the deployed `k = 32`). -/
theorem commitMatch_rating_records (p1 p2 p3 p4 : Player) (wt : Int) (d : String)
    (s1 s2 : Option Int) (db : DB) :
    ∃ l, (commitMatch 32 p1 p2 p3 p4 wt d s1 s2 db).2.history = db.history ++ l ∧
      l.length = 4 ∧ ∀ rc ∈ l, rc.new_rating = rc.old_rating + rc.rating_change := by
  obtain ⟨hn1, hn2⟩ := noTie_match_outcome p1.current_elo p2.current_elo
    p3.current_elo p4.current_elo (decide (wt = 1))
  set o := calculate_match_outcome 32 (p1.current_elo : ℝ) (p2.current_elo : ℝ)
    (p3.current_elo : ℝ) (p4.current_elo : ℝ) (decide (wt = 1)) with ho
  refine ⟨[
    { history_id := db.nextHistoryId, player_id := p1.player_id,
      match_id := db.nextMatchId, old_rating := p1.current_elo,
      new_rating := pyRound ((p1.current_elo : ℝ) + o.team1_change),
      rating_change := pyRound o.team1_change },
    { history_id := db.nextHistoryId + 1, player_id := p2.player_id,
      match_id := db.nextMatchId, old_rating := p2.current_elo,
      new_rating := pyRound ((p2.current_elo : ℝ) + o.team1_change),
      rating_change := pyRound o.team1_change },
    { history_id := db.nextHistoryId + 2, player_id := p3.player_id,
      match_id := db.nextMatchId, old_rating := p3.current_elo,
      new_rating := pyRound ((p3.current_elo : ℝ) + o.team2_change),
      rating_change := pyRound o.team2_change },
    { history_id := db.nextHistoryId + 3, player_id := p4.player_id,
      match_id := db.nextMatchId, old_rating := p4.current_elo,
      new_rating := pyRound ((p4.current_elo : ℝ) + o.team2_change),
      rating_change := pyRound o.team2_change }], ?_, rfl, ?_⟩
  · simp [commitMatch, applyPlayerUpdate, match_create, history_create,
      player_update, ← ho]
  · intro rc hrc
    simp only [List.mem_cons, List.not_mem_nil, or_false] at hrc
    rcases hrc with rfl | rfl | rfl | rfl
    · exact pyRound_int_add _ _ hn1
    · exact pyRound_int_add _ _ hn1
    · exact pyRound_int_add _ _ hn2
    · exact pyRound_int_add _ _ hn2

/-- Claim C1: every history record written by a successful `record_match`
(as deployed, `k = 32`) satisfies `new_rating = old_rating + rating_change`
exactly: the four appended rows all relate stored old rating, new rating and
signed delta by addition after rounding. -/
theorem claim_C1_rating_change_additive (n1 n2 n3 n4 : String) (wt : Int) (d : String)
    (s1 s2 : Option Int) (db db' : DB) (m : Match)
    (h : record_match 32 n1 n2 n3 n4 wt d s1 s2 db = (.ok m, db')) :
    ∃ l, db'.history = db.history ++ l ∧ l.length = 4 ∧
      ∀ rc ∈ l, rc.new_rating = rc.old_rating + rc.rating_change := by
  obtain ⟨-, -, p1, p2, p3, p4, -, -, -, -, hcm⟩ := record_match_ok_elim h
  have hdb' : db' = (commitMatch 32 p1 p2 p3 p4 wt d s1 s2 db).2 :=
    congrArg Prod.snd hcm
  rw [hdb']
  exact commitMatch_rating_records p1 p2 p3 p4 wt d s1 s2 db

/-- Claim C2: `record_match` validates in source order — winning team first,
then duplicate names, then unresolved names (reporting every missing name in
slot order) — and any validation failure returns the error with the store
untouched (zero persisted rows). -/
theorem claim_C2_validation_order (k : ℝ) (n1 n2 n3 n4 : String) (wt : Int)
    (d : String) (s1 s2 : Option Int) (db : DB) :
    (¬ (wt = 1 ∨ wt = 2) →
      record_match k n1 n2 n3 n4 wt d s1 s2 db =
        (.error "winning_team must be 1 or 2", db)) ∧
    ((wt = 1 ∨ wt = 2) → ¬ ([n1, n2, n3, n4].Nodup) →
      record_match k n1 n2 n3 n4 wt d s1 s2 db =
        (.error "A player cannot appear twice in the same match", db)) ∧
    ((wt = 1 ∨ wt = 2) → [n1, n2, n3, n4].Nodup →
      (([n1, n2, n3, n4].zip [get_by_name n1 db, get_by_name n2 db,
          get_by_name n3 db, get_by_name n4 db]).filterMap
        (fun x => if x.2.isNone then some x.1 else none)) ≠ [] →
      record_match k n1 n2 n3 n4 wt d s1 s2 db =
        (.error ("Players not found: " ++ String.intercalate ", "
          (([n1, n2, n3, n4].zip [get_by_name n1 db, get_by_name n2 db,
              get_by_name n3 db, get_by_name n4 db]).filterMap
            (fun x => if x.2.isNone then some x.1 else none))), db)) ∧
    (∀ e db2, record_match k n1 n2 n3 n4 wt d s1 s2 db = (.error e, db2) → db2 = db) := by
  refine ⟨?_, ?_, ?_, ?_⟩
  · intro hwt
    unfold record_match
    rw [if_pos hwt]
  · intro hwt hdup
    unfold record_match
    rw [if_neg (not_not.mpr hwt), if_pos hdup]
  · intro hwt hdup hmiss
    unfold record_match
    rw [if_neg (not_not.mpr hwt), if_neg (not_not.mpr hdup)]
    rcases hg1 : get_by_name n1 db with _ | p1 <;>
      rcases hg2 : get_by_name n2 db with _ | p2 <;>
        rcases hg3 : get_by_name n3 db with _ | p3 <;>
          rcases hg4 : get_by_name n4 db with _ | p4 <;>
            simp_all
  · intro e db2 h
    unfold record_match at h
    split_ifs at h with h1 h2
    · rcases hg1 : get_by_name n1 db with _ | p1
      · rw [hg1] at h
        simp only [Prod.mk.injEq] at h
        exact h.2.symm
      rcases hg2 : get_by_name n2 db with _ | p2
      · rw [hg1, hg2] at h
        simp only [Prod.mk.injEq] at h
        exact h.2.symm
      rcases hg3 : get_by_name n3 db with _ | p3
      · rw [hg1, hg2, hg3] at h
        simp only [Prod.mk.injEq] at h
        exact h.2.symm
      rcases hg4 : get_by_name n4 db with _ | p4
      · rw [hg1, hg2, hg3, hg4] at h
        simp only [Prod.mk.injEq] at h
        exact h.2.symm
      rw [hg1, hg2, hg3, hg4] at h
      simp at h
    · simp only [Prod.mk.injEq] at h
      exact h.2.symm
    · simp only [Prod.mk.injEq] at h
      exact h.2.symm

/-- Claim C7: `add_player` rejects an existing name with the duplicate error
leaving the store unchanged, and otherwise appends exactly one player at the
configured initial rating with zero games, wins and losses. -/
theorem claim_C7_add_player (initR : Int) (name : String) (db : DB) :
    ((get_by_name name db).isSome →
      add_player initR name db =
        (.error ("Player '" ++ name ++ "' already exists"), db)) ∧
    (get_by_name name db = none →
      add_player initR name db =
        (.ok { player_id := db.nextPlayerId, name := name, current_elo := initR,
               games_played := 0, wins := 0, losses := 0 },
         { db with
             players := db.players ++
               [{ player_id := db.nextPlayerId, name := name, current_elo := initR,
                  games_played := 0, wins := 0, losses := 0 }],
             nextPlayerId := db.nextPlayerId + 1 })) := by
  constructor
  · intro h
    obtain ⟨p, hp⟩ := Option.isSome_iff_exists.mp h
    unfold add_player
    rw [hp]
  · intro h
    unfold add_player
    rw [h]
    rfl

/-- Winner-first formatting of a recorded match's score string, and the
`"N/A"` sentinel when either side's score is absent. -/
theorem match_score_spec (m : Match) (hw : m.winning_team = 1 ∨ m.winning_team = 2) :
    (∀ w l, winnerScore m = some w → loserScore m = some l →
        match_score m = some (toString w ++ " - " ++ toString l)) ∧
    ((winnerScore m = none ∨ loserScore m = none) → match_score m = some "N/A") := by
  rcases hs1 : m.team1_score with _ | a <;>
    rcases hs2 : m.team2_score with _ | b <;>
      rcases hw with hw | hw <;>
        simp [match_score, winnerScore, loserScore, hw, hs1, hs2]

/-- The match returned by `commitMatch` carries the submitted winning team
and score slots. -/
theorem commitMatch_fst_fields (k : ℝ) (p1 p2 p3 p4 : Player) (wt : Int)
    (d : String) (s1 s2 : Option Int) (db : DB) :
    (commitMatch k p1 p2 p3 p4 wt d s1 s2 db).1.winning_team = wt ∧
    (commitMatch k p1 p2 p3 p4 wt d s1 s2 db).1.team1_score = s1 ∧
    (commitMatch k p1 p2 p3 p4 wt d s1 s2 db).1.team2_score = s2 := by
  exact ⟨rfl, rfl, rfl⟩

/-- Claim C9: for every recorded match, the computed score string is the
winning team's score first (`"<winnerScore> - <loserScore>"`) when both
per-team scores are present, and the `"N/A"` sentinel when either is
absent. -/
theorem claim_C9_match_score_winner_first (k : ℝ) (n1 n2 n3 n4 : String)
    (wt : Int) (d : String) (s1 s2 : Option Int) (db db' : DB) (m : Match)
    (h : record_match k n1 n2 n3 n4 wt d s1 s2 db = (.ok m, db')) :
    (∀ w l, winnerScore m = some w → loserScore m = some l →
        match_score m = some (toString w ++ " - " ++ toString l)) ∧
    ((winnerScore m = none ∨ loserScore m = none) → match_score m = some "N/A") := by
  obtain ⟨hwt, -, p1, p2, p3, p4, -, -, -, -, hcm⟩ := record_match_ok_elim h
  have hm : m = (commitMatch k p1 p2 p3 p4 wt d s1 s2 db).1 := congrArg Prod.fst hcm
  have hwin : m.winning_team = wt := by
    rw [hm]
    exact (commitMatch_fst_fields k p1 p2 p3 p4 wt d s1 s2 db).1
  exact match_score_spec m (by rw [hwin]; exact hwt)

/-- Claim C10: querying rating history for an unknown name raises the
player-not-found error; an existing player with no recorded matches yields
the empty sequence; and an existing player with history and a positive limit
yields a non-empty sequence. -/
theorem claim_C10_history_lookup (name : String) (limit : Nat) (db : DB) :
    (get_by_name name db = none →
      get_player_history name limit db =
        .error ("Player '" ++ name ++ "' not found")) ∧
    (∀ p, get_by_name name db = some p → playerHistoryChron db p.player_id = [] →
      get_player_history name limit db = .ok []) ∧
    (∀ p, get_by_name name db = some p → playerHistoryChron db p.player_id ≠ [] →
      1 ≤ limit → ∃ l, get_player_history name limit db = .ok l ∧ l ≠ []) := by
  refine ⟨?_, ?_, ?_⟩
  · intro h
    unfold get_player_history
    rw [h]
  · intro p hp hnil
    unfold get_player_history
    rw [hp]
    unfold playerHistoryChron at hnil
    show Except.ok (history_get_by_player p.player_id limit db) = Except.ok []
    unfold history_get_by_player
    rw [hnil]
    simp
  · intro p hp hne hlim
    unfold get_player_history
    rw [hp]
    show ∃ l, Except.ok (history_get_by_player p.player_id limit db) = Except.ok l ∧ l ≠ []
    refine ⟨_, rfl, ?_⟩
    unfold playerHistoryChron at hne
    unfold history_get_by_player
    intro hcontra
    rw [List.take_eq_nil_iff] at hcontra
    rcases hcontra with hc | hc
    · omega
    · rw [List.reverse_eq_nil_iff] at hc
      exact hne hc

/-- Inserting into the ranking order produces a permutation. -/
theorem insertByElo_perm (p : Player) (l : List Player) :
    (insertByElo p l).Perm (p :: l) := by
  induction l with
  | nil => exact List.Perm.refl _
  | cons q t ih =>
    unfold insertByElo
    split_ifs with h
    · exact List.Perm.refl _
    · exact ((ih.cons q).trans (List.Perm.swap p q t))

/-- The ranking order is a permutation of the stored rows. -/
theorem sortByElo_perm (l : List Player) : (sortByElo l).Perm l := by
  induction l with
  | nil => exact List.Perm.refl _
  | cons p t ih =>
    show (insertByElo p (sortByElo t)).Perm _
    exact (insertByElo_perm p (sortByElo t)).trans (ih.cons p)

/-- Inserting into a rating-descending list keeps it rating-descending. -/
theorem insertByElo_sorted (p : Player) (l : List Player)
    (h : l.Pairwise (fun a b => b.current_elo ≤ a.current_elo)) :
    (insertByElo p l).Pairwise (fun a b => b.current_elo ≤ a.current_elo) := by
  induction l with
  | nil => simp [insertByElo]
  | cons q t ih =>
    rcases List.pairwise_cons.mp h with ⟨hq, ht⟩
    unfold insertByElo
    split_ifs with hle
    · refine List.pairwise_cons.mpr ⟨?_, h⟩
      intro x hx
      rcases List.mem_cons.mp hx with rfl | hx
      · exact hle
      · exact le_trans (hq x hx) hle
    · refine List.pairwise_cons.mpr ⟨?_, ih ht⟩
      intro x hx
      have hx' := (insertByElo_perm p t).mem_iff.mp hx
      rcases List.mem_cons.mp hx' with rfl | hx'
      · exact (not_le.mp hle).le
      · exact hq x hx'

/-- The ranking order is rating-descending. -/
theorem sortByElo_sorted (l : List Player) :
    (sortByElo l).Pairwise (fun a b => b.current_elo ≤ a.current_elo) := by
  induction l with
  | nil => simp [sortByElo]
  | cons p t ih =>
    show (insertByElo p (sortByElo t)).Pairwise _
    exact insertByElo_sorted p (sortByElo t) ih

/-- Filtering one rating class through an insertion keeps insertion order. -/
theorem filter_insertByElo (p : Player) (l : List Player) (r : Int) :
    (insertByElo p l).filter (fun q => q.current_elo = r) =
      if p.current_elo = r then p :: l.filter (fun q => q.current_elo = r)
      else l.filter (fun q => q.current_elo = r) := by
  induction l with
  | nil =>
    by_cases hp : p.current_elo = r <;> simp [insertByElo, hp]
  | cons q t ih =>
    by_cases hle : q.current_elo ≤ p.current_elo
    · rw [show insertByElo p (q :: t) = p :: q :: t from by
        simp only [insertByElo]; rw [if_pos hle]]
      by_cases hp : p.current_elo = r <;> simp [List.filter_cons, hp]
    · rw [show insertByElo p (q :: t) = q :: insertByElo p t from by
        simp only [insertByElo]; rw [if_neg hle]]
      by_cases hp : p.current_elo = r
      · have hq : ¬ (q.current_elo = r) := fun hq => hle (le_of_eq (hq.trans hp.symm))
        simp [List.filter_cons, hq, hp, ih]
      · simp [List.filter_cons, hp, ih]

/-- Stability of the ranking order: within a rating class, rows keep their
insertion order. -/
theorem sortByElo_filter (l : List Player) (r : Int) :
    (sortByElo l).filter (fun q => q.current_elo = r) =
      l.filter (fun q => q.current_elo = r) := by
  induction l with
  | nil => rfl
  | cons p t ih =>
    show (insertByElo p (sortByElo t)).filter _ = _
    rw [filter_insertByElo]
    by_cases hp : p.current_elo = r <;> simp [List.filter_cons, hp, ih]

/-- Claim C8 counterexample: with eleven stored players, `get_rankings` at
the source's default limit of 10 does not return all players. -/
theorem claim_C8_counterexample :
    (get_rankings 10 db11).length ≠ db11.players.length := by decide

/-- Claim C8 (amended): `get_rankings` returns the first `limit` players
(default 10) of the rating-descending ordering of all stored players, whose
ties follow insertion order (the modelled stable sort); it returns all of
them only up to that truncation. -/
theorem claim_C8_rankings_order (limit : Nat) (db : DB) :
    get_rankings limit db = (sortByElo db.players).take limit ∧
    (get_all db).Pairwise (fun a b => b.current_elo ≤ a.current_elo) ∧
    (get_all db).Perm db.players ∧
    ∀ r : Int, (get_all db).filter (fun q => q.current_elo = r) =
      db.players.filter (fun q => q.current_elo = r) :=
  ⟨rfl, sortByElo_sorted db.players, sortByElo_perm db.players,
    fun r => sortByElo_filter db.players r⟩

/-- A successful `add_player` means the name was free, and the result is the
fresh player appended to the store. -/
theorem add_player_ok_elim {init : Int} {name : String} {db db' : DB} {p : Player}
    (h : add_player init name db = (.ok p, db')) :
    get_by_name name db = none ∧
    p = { player_id := db.nextPlayerId, name := name, current_elo := init,
          games_played := 0, wins := 0, losses := 0 } ∧
    db' = { db with players := db.players ++ [p],
                    nextPlayerId := db.nextPlayerId + 1 } := by
  unfold add_player at h
  rcases hg : get_by_name name db with _ | q
  · rw [hg] at h
    simp only [Prod.mk.injEq, Except.ok.injEq] at h
    refine ⟨rfl, h.1.symm, ?_⟩
    rw [← h.2, ← h.1]
    rfl
  · rw [hg] at h
    simp at h

/-- A name lookup hit is a stored row carrying that name. -/
theorem get_by_name_mem {name : String} {db : DB} {p : Player}
    (h : get_by_name name db = some p) : p ∈ db.players ∧ p.name = name := by
  unfold get_by_name at h
  refine ⟨List.mem_of_find?_eq_some h, ?_⟩
  have := List.find?_some h
  simpa using this

/-- Distinct names resolve to rows with distinct ids (given id uniqueness). -/
theorem get_by_name_ids_ne {db : DB} (hnd : IdsNodup db) {na nb : String}
    {pa pb : Player} (ha : get_by_name na db = some pa)
    (hb : get_by_name nb db = some pb) (hne : na ≠ nb) :
    pa.player_id ≠ pb.player_id := by
  obtain ⟨hma, hna⟩ := get_by_name_mem ha
  obtain ⟨hmb, hnb⟩ := get_by_name_mem hb
  intro hid
  have heq : pa = pb := List.inj_on_of_nodup_map hnd hma hmb hid
  exact hne (by rw [← hna, ← hnb, heq])

/-- Replacing the row with a given id keeps the id column unchanged. -/
theorem map_replace_ids (l : List Player) (p' : Player) (i : Nat)
    (hip : p'.player_id = i) :
    (l.map (fun q => if q.player_id = i then p' else q)).map Player.player_id =
      l.map Player.player_id := by
  induction l with
  | nil => rfl
  | cons q t ih =>
    by_cases h : q.player_id = i <;> simp [h, ih, hip]

/-- A row with a different id survives the replacement unchanged. -/
theorem mem_replace_of_ne {l : List Player} {p' q : Player} {i : Nat}
    (hq : q ∈ l) (hne : q.player_id ≠ i) :
    q ∈ l.map (fun x => if x.player_id = i then p' else x) := by
  have := List.mem_map_of_mem (f := fun x => if x.player_id = i then p' else x) hq
  simp only at this
  rwa [if_neg hne] at this

/-- The replacement row is present as soon as some row carried the id. -/
theorem mem_replace_self {l : List Player} {p' q : Player} {i : Nat}
    (hq : q ∈ l) (hqi : q.player_id = i) :
    p' ∈ l.map (fun x => if x.player_id = i then p' else x) := by
  have := List.mem_map_of_mem (f := fun x => if x.player_id = i then p' else x) hq
  simp only at this
  rwa [if_pos hqi] at this

/-- Any row of the replaced list is the replacement or an untouched row with
a different id. -/
theorem mem_map_replace_elim {l : List Player} {p' q' : Player} {i : Nat}
    (h : q' ∈ l.map (fun x => if x.player_id = i then p' else x)) :
    q' = p' ∨ (q' ∈ l ∧ q'.player_id ≠ i) := by
  obtain ⟨q, hq, heq⟩ := List.mem_map.mp h
  by_cases hqi : q.player_id = i
  · rw [if_pos hqi] at heq
    exact Or.inl heq.symm
  · rw [if_neg hqi] at heq
    exact Or.inr ⟨heq ▸ hq, heq ▸ hqi⟩

/-- Replacement is the identity when no row carries the id. -/
theorem map_replace_of_forall_ne {l : List Player} {p' : Player} {i : Nat}
    (h : ∀ q ∈ l, q.player_id ≠ i) :
    l.map (fun x => if x.player_id = i then p' else x) = l := by
  induction l with
  | nil => rfl
  | cons q t ih =>
    rw [List.map_cons, if_neg (h q (List.mem_cons_self q t)),
      ih (fun x hx => h x (List.mem_cons_of_mem q hx))]

/-- Replacing a stored row by one with one more game raises the total game
count by exactly one. -/
theorem sumGames_replace {l : List Player} {p p' : Player} {i : Nat}
    (hnd : (l.map Player.player_id).Nodup) (hmem : p ∈ l)
    (hpi : p.player_id = i) (hg : p'.games_played = p.games_played + 1) :
    sumGames (l.map (fun x => if x.player_id = i then p' else x)) =
      sumGames l + 1 := by
  induction l with
  | nil => cases hmem
  | cons q t ih =>
    rw [List.map_cons, List.nodup_cons] at hnd
    rcases List.mem_cons.mp hmem with rfl | hmem'
    · rw [List.map_cons, if_pos hpi]
      have htne : ∀ x ∈ t, x.player_id ≠ i := by
        intro x hx hxi
        apply hnd.1
        rw [← hpi] at hxi
        exact hxi ▸ List.mem_map_of_mem Player.player_id hx
      rw [map_replace_of_forall_ne htne]
      unfold sumGames
      simp [hg]
      omega
    · have hqne : q.player_id ≠ i := by
        intro hqi
        refine hnd.1 ?_
        rw [hqi, ← hpi]
        exact List.mem_map_of_mem _ hmem'
      rw [List.map_cons, if_neg hqne]
      unfold sumGames at ih ⊢
      simp only [List.map_cons, List.sum_cons]
      rw [show (List.map Player.games_played
        (t.map (fun x => if x.player_id = i then p' else x))).sum =
          (t.map Player.games_played).sum + 1 from ih hnd.2 hmem']
      omega

/-- Replaying a history that ends in a freshly appended record lands on that
record's new rating. -/
theorem replayFinal_concat (init : Int) (l : List RatingChange) (rc : RatingChange) :
    replayFinal init (l ++ [rc]) = rc.new_rating := by
  unfold replayFinal
  rw [List.getLast?_concat]

/-- One player-update step of the recording loop preserves the store
invariants, appends one in-range history row, and adds one game to the
total. -/
theorem applyPlayerUpdate_pres (init : Int) (p : Player) (δ : ℝ) (w : Bool)
    (mid : Nat) (db : DB)
    (hmem : p ∈ db.players) (hnd : IdsNodup db) (hlt : IdsLt db)
    (hgeq : GamesEq db) (hrep : ReplayOk init db)
    (hhist : ∀ rc ∈ db.history, rc.player_id < db.nextPlayerId) :
    IdsNodup (applyPlayerUpdate p δ w mid db) ∧
    IdsLt (applyPlayerUpdate p δ w mid db) ∧
    GamesEq (applyPlayerUpdate p δ w mid db) ∧
    ReplayOk init (applyPlayerUpdate p δ w mid db) ∧
    (∀ rc ∈ (applyPlayerUpdate p δ w mid db).history,
        rc.player_id < (applyPlayerUpdate p δ w mid db).nextPlayerId) ∧
    sumGames (applyPlayerUpdate p δ w mid db).players = sumGames db.players + 1 := by
  set P' : Player := { p with current_elo := pyRound ((p.current_elo : ℝ) + δ), games_played := p.games_played + 1, wins := if w then p.wins + 1 else p.wins, losses := if w then p.losses else p.losses + 1 } with hP'
  set rec : RatingChange := { history_id := db.nextHistoryId, player_id := p.player_id, match_id := mid, old_rating := p.current_elo, new_rating := pyRound ((p.current_elo : ℝ) + δ), rating_change := pyRound δ } with hrec
  have hpl : (applyPlayerUpdate p δ w mid db).players =
      db.players.map (fun q => if q.player_id = p.player_id then P' else q) := rfl
  have hhi : (applyPlayerUpdate p δ w mid db).history = db.history ++ [rec] := rfl
  have hnp : (applyPlayerUpdate p δ w mid db).nextPlayerId = db.nextPlayerId := rfl
  have hP'id : P'.player_id = p.player_id := rfl
  refine ⟨?_, ?_, ?_, ?_, ?_, ?_⟩
  · unfold IdsNodup
    rw [hpl, map_replace_ids _ P' _ hP'id]
    exact hnd
  · intro q hq
    rw [hpl] at hq
    rw [hnp]
    rcases mem_map_replace_elim hq with rfl | ⟨hq', -⟩
    · rw [hP'id]
      exact hlt p hmem
    · exact hlt q hq'
  · intro q hq
    rw [hpl] at hq
    rcases mem_map_replace_elim hq with rfl | ⟨hq', -⟩
    · have hp := hgeq p hmem
      cases w <;> simp [hP'] <;> omega
    · exact hgeq q hq'
  · intro q hq
    rw [hpl] at hq
    rcases mem_map_replace_elim hq with rfl | ⟨hq', hqne⟩
    · unfold playerHistoryChron
      rw [hhi, List.filter_append]
      have hone : [rec].filter (fun rc => rc.player_id = P'.player_id) = [rec] := by
        simp [hrec, hP'id]
      rw [hone, replayFinal_concat]
    · unfold playerHistoryChron
      rw [hhi, List.filter_append]
      have hzero : [rec].filter (fun x => x.player_id = q.player_id) = [] := by
        have : rec.player_id ≠ q.player_id := by
          rw [hrec]
          exact Ne.symm hqne
        simp [this]
      rw [hzero, List.append_nil]
      exact hrep q hq'
  · intro rc hrc
    rw [hhi] at hrc
    rw [hnp]
    rcases List.mem_append.mp hrc with h' | h'
    · exact hhist rc h'
    · rw [List.mem_singleton] at h'
      subst h'
      exact hlt p hmem
  · rw [hpl]
    exact sumGames_replace hnd hmem rfl rfl

/-- A row with a different id passes through a player update unchanged. -/
theorem mem_applyPlayerUpdate_of_ne {q p : Player} {δ : ℝ} {w : Bool} {mid : Nat}
    {db : DB} (hq : q ∈ db.players) (hne : q.player_id ≠ p.player_id) :
    q ∈ (applyPlayerUpdate p δ w mid db).players :=
  mem_replace_of_ne hq hne

/-- The updated row itself is stored by a player update. -/
theorem updated_mem_applyPlayerUpdate {p : Player} {δ : ℝ} {w : Bool} {mid : Nat}
    {db : DB} (hp : p ∈ db.players) :
    { p with current_elo := pyRound ((p.current_elo : ℝ) + δ),
             games_played := p.games_played + 1,
             wins := if w then p.wins + 1 else p.wins,
             losses := if w then p.losses else p.losses + 1 } ∈
      (applyPlayerUpdate p δ w mid db).players :=
  mem_replace_self hp rfl

/-- Running the four player updates of one match preserves all store
invariants, adds four games in total, and gives each participant exactly one
more game and exactly one more win or loss according to its team's result. -/
theorem four_updates_pres (init : Int) (p1 p2 p3 p4 : Player) (δ1 δ2 : ℝ)
    (w1 w2 : Bool) (mid : Nat) (db : DB) (db4 : DB)
    (hdb4 : db4 = applyPlayerUpdate p4 δ2 w2 mid (applyPlayerUpdate p3 δ2 w2 mid
      (applyPlayerUpdate p2 δ1 w1 mid (applyPlayerUpdate p1 δ1 w1 mid db))))
    (h1 : p1 ∈ db.players) (h2 : p2 ∈ db.players) (h3 : p3 ∈ db.players)
    (h4 : p4 ∈ db.players)
    (h12 : p1.player_id ≠ p2.player_id) (h13 : p1.player_id ≠ p3.player_id)
    (h14 : p1.player_id ≠ p4.player_id) (h23 : p2.player_id ≠ p3.player_id)
    (h24 : p2.player_id ≠ p4.player_id) (h34 : p3.player_id ≠ p4.player_id)
    (hnd : IdsNodup db) (hlt : IdsLt db) (hgeq : GamesEq db)
    (hrep : ReplayOk init db)
    (hhist : ∀ rc ∈ db.history, rc.player_id < db.nextPlayerId) :
    IdsNodup db4 ∧ IdsLt db4 ∧ GamesEq db4 ∧ ReplayOk init db4 ∧
    (∀ rc ∈ db4.history, rc.player_id < db4.nextPlayerId) ∧
    sumGames db4.players = sumGames db.players + 4 ∧
    (∃ q ∈ db4.players, q.player_id = p1.player_id ∧
      q.games_played = p1.games_played + 1 ∧
      q.wins = (if w1 then p1.wins + 1 else p1.wins) ∧
      q.losses = (if w1 then p1.losses else p1.losses + 1)) ∧
    (∃ q ∈ db4.players, q.player_id = p2.player_id ∧
      q.games_played = p2.games_played + 1 ∧
      q.wins = (if w1 then p2.wins + 1 else p2.wins) ∧
      q.losses = (if w1 then p2.losses else p2.losses + 1)) ∧
    (∃ q ∈ db4.players, q.player_id = p3.player_id ∧
      q.games_played = p3.games_played + 1 ∧
      q.wins = (if w2 then p3.wins + 1 else p3.wins) ∧
      q.losses = (if w2 then p3.losses else p3.losses + 1)) ∧
    (∃ q ∈ db4.players, q.player_id = p4.player_id ∧
      q.games_played = p4.games_played + 1 ∧
      q.wins = (if w2 then p4.wins + 1 else p4.wins) ∧
      q.losses = (if w2 then p4.losses else p4.losses + 1)) := by
  subst hdb4
  obtain ⟨nd1, lt1, geq1, rep1, hist1, sum1⟩ :=
    applyPlayerUpdate_pres init p1 δ1 w1 mid db h1 hnd hlt hgeq hrep hhist
  have h2m1 : p2 ∈ (applyPlayerUpdate p1 δ1 w1 mid db).players :=
    mem_applyPlayerUpdate_of_ne h2 (Ne.symm h12)
  have h3m1 : p3 ∈ (applyPlayerUpdate p1 δ1 w1 mid db).players :=
    mem_applyPlayerUpdate_of_ne h3 (Ne.symm h13)
  have h4m1 : p4 ∈ (applyPlayerUpdate p1 δ1 w1 mid db).players :=
    mem_applyPlayerUpdate_of_ne h4 (Ne.symm h14)
  obtain ⟨nd2, lt2, geq2, rep2, hist2, sum2⟩ :=
    applyPlayerUpdate_pres init p2 δ1 w1 mid _ h2m1 nd1 lt1 geq1 rep1 hist1
  have h3m2 : p3 ∈ (applyPlayerUpdate p2 δ1 w1 mid
      (applyPlayerUpdate p1 δ1 w1 mid db)).players :=
    mem_applyPlayerUpdate_of_ne h3m1 (Ne.symm h23)
  have h4m2 : p4 ∈ (applyPlayerUpdate p2 δ1 w1 mid
      (applyPlayerUpdate p1 δ1 w1 mid db)).players :=
    mem_applyPlayerUpdate_of_ne h4m1 (Ne.symm h24)
  obtain ⟨nd3, lt3, geq3, rep3, hist3, sum3⟩ :=
    applyPlayerUpdate_pres init p3 δ2 w2 mid _ h3m2 nd2 lt2 geq2 rep2 hist2
  have h4m3 : p4 ∈ (applyPlayerUpdate p3 δ2 w2 mid (applyPlayerUpdate p2 δ1 w1 mid
      (applyPlayerUpdate p1 δ1 w1 mid db))).players :=
    mem_applyPlayerUpdate_of_ne h4m2 (Ne.symm h34)
  obtain ⟨nd4, lt4, geq4, rep4, hist4, sum4⟩ :=
    applyPlayerUpdate_pres init p4 δ2 w2 mid _ h4m3 nd3 lt3 geq3 rep3 hist3
  have hq1 : { p1 with current_elo := pyRound ((p1.current_elo : ℝ) + δ1), games_played := p1.games_played + 1, wins := if w1 then p1.wins + 1 else p1.wins, losses := if w1 then p1.losses else p1.losses + 1 } ∈
        (applyPlayerUpdate p4 δ2 w2 mid (applyPlayerUpdate p3 δ2 w2 mid
          (applyPlayerUpdate p2 δ1 w1 mid
            (applyPlayerUpdate p1 δ1 w1 mid db)))).players :=
    mem_applyPlayerUpdate_of_ne (mem_applyPlayerUpdate_of_ne
      (mem_applyPlayerUpdate_of_ne (updated_mem_applyPlayerUpdate h1) h12) h13) h14
  have hq2 : { p2 with current_elo := pyRound ((p2.current_elo : ℝ) + δ1), games_played := p2.games_played + 1, wins := if w1 then p2.wins + 1 else p2.wins, losses := if w1 then p2.losses else p2.losses + 1 } ∈
        (applyPlayerUpdate p4 δ2 w2 mid (applyPlayerUpdate p3 δ2 w2 mid
          (applyPlayerUpdate p2 δ1 w1 mid
            (applyPlayerUpdate p1 δ1 w1 mid db)))).players :=
    mem_applyPlayerUpdate_of_ne (mem_applyPlayerUpdate_of_ne
      (updated_mem_applyPlayerUpdate h2m1) h23) h24
  have hq3 : { p3 with current_elo := pyRound ((p3.current_elo : ℝ) + δ2), games_played := p3.games_played + 1, wins := if w2 then p3.wins + 1 else p3.wins, losses := if w2 then p3.losses else p3.losses + 1 } ∈
        (applyPlayerUpdate p4 δ2 w2 mid (applyPlayerUpdate p3 δ2 w2 mid
          (applyPlayerUpdate p2 δ1 w1 mid
            (applyPlayerUpdate p1 δ1 w1 mid db)))).players :=
    mem_applyPlayerUpdate_of_ne (updated_mem_applyPlayerUpdate h3m2) h34
  have hq4 : { p4 with current_elo := pyRound ((p4.current_elo : ℝ) + δ2), games_played := p4.games_played + 1, wins := if w2 then p4.wins + 1 else p4.wins, losses := if w2 then p4.losses else p4.losses + 1 } ∈
        (applyPlayerUpdate p4 δ2 w2 mid (applyPlayerUpdate p3 δ2 w2 mid
          (applyPlayerUpdate p2 δ1 w1 mid
            (applyPlayerUpdate p1 δ1 w1 mid db)))).players :=
    updated_mem_applyPlayerUpdate h4m3
  refine ⟨nd4, lt4, geq4, rep4, hist4, ?_,
    ⟨_, hq1, rfl, rfl, rfl, rfl⟩, ⟨_, hq2, rfl, rfl, rfl, rfl⟩,
    ⟨_, hq3, rfl, rfl, rfl, rfl⟩, ⟨_, hq4, rfl, rfl, rfl, rfl⟩⟩
  rw [sum4, sum3, sum2, sum1]

/-- A successful `record_match` (deployed `k = 32`) preserves the store
invariants, adds four games, and updates each participant's aggregates
according to its team's result. -/
theorem record_match_pres (init : Int) {n1 n2 n3 n4 : String} {wt : Int}
    {d : String} {s1 s2 : Option Int} {db db' : DB} {m : Match}
    (h : record_match 32 n1 n2 n3 n4 wt d s1 s2 db = (.ok m, db'))
    (hnd : IdsNodup db) (hlt : IdsLt db) (hgeq : GamesEq db)
    (hrep : ReplayOk init db)
    (hhist : ∀ rc ∈ db.history, rc.player_id < db.nextPlayerId) :
    IdsNodup db' ∧ IdsLt db' ∧ GamesEq db' ∧ ReplayOk init db' ∧
    (∀ rc ∈ db'.history, rc.player_id < db'.nextPlayerId) ∧
    sumGames db'.players = sumGames db.players + 4 ∧
    ∃ p1 p2 p3 p4, get_by_name n1 db = some p1 ∧ get_by_name n2 db = some p2 ∧
      get_by_name n3 db = some p3 ∧ get_by_name n4 db = some p4 ∧
      (∃ q ∈ db'.players, q.player_id = p1.player_id ∧
        q.games_played = p1.games_played + 1 ∧
        q.wins = (if wt = 1 then p1.wins + 1 else p1.wins) ∧
        q.losses = (if wt = 1 then p1.losses else p1.losses + 1)) ∧
      (∃ q ∈ db'.players, q.player_id = p2.player_id ∧
        q.games_played = p2.games_played + 1 ∧
        q.wins = (if wt = 1 then p2.wins + 1 else p2.wins) ∧
        q.losses = (if wt = 1 then p2.losses else p2.losses + 1)) ∧
      (∃ q ∈ db'.players, q.player_id = p3.player_id ∧
        q.games_played = p3.games_played + 1 ∧
        q.wins = (if wt = 1 then p3.wins else p3.wins + 1) ∧
        q.losses = (if wt = 1 then p3.losses + 1 else p3.losses)) ∧
      (∃ q ∈ db'.players, q.player_id = p4.player_id ∧
        q.games_played = p4.games_played + 1 ∧
        q.wins = (if wt = 1 then p4.wins else p4.wins + 1) ∧
        q.losses = (if wt = 1 then p4.losses + 1 else p4.losses)) := by
  obtain ⟨hwt, hnods, p1, p2, p3, p4, hg1, hg2, hg3, hg4, hcm⟩ := record_match_ok_elim h
  have hdb' : db' = (commitMatch 32 p1 p2 p3 p4 wt d s1 s2 db).2 :=
    congrArg Prod.snd hcm
  have hn : n1 ≠ n2 ∧ n1 ≠ n3 ∧ n1 ≠ n4 ∧ n2 ≠ n3 ∧ n2 ≠ n4 ∧ n3 ≠ n4 := by
    simp only [List.nodup_cons, List.mem_cons, List.not_mem_nil, or_false,
      List.mem_singleton, List.nodup_nil, and_true, not_or] at hnods
    refine ⟨?_, ?_, ?_, ?_, ?_, ?_⟩ <;> tauto
  have hm1 := (get_by_name_mem hg1).1
  have hm2 := (get_by_name_mem hg2).1
  have hm3 := (get_by_name_mem hg3).1
  have hm4 := (get_by_name_mem hg4).1
  have hi12 := get_by_name_ids_ne hnd hg1 hg2 hn.1
  have hi13 := get_by_name_ids_ne hnd hg1 hg3 hn.2.1
  have hi14 := get_by_name_ids_ne hnd hg1 hg4 hn.2.2.1
  have hi23 := get_by_name_ids_ne hnd hg2 hg3 hn.2.2.2.1
  have hi24 := get_by_name_ids_ne hnd hg2 hg4 hn.2.2.2.2.1
  have hi34 := get_by_name_ids_ne hnd hg3 hg4 hn.2.2.2.2.2
  obtain ⟨nd4, lt4, geq4, rep4, hist4, sum4, f1, f2, f3, f4⟩ :=
    four_updates_pres init p1 p2 p3 p4
      ((calculate_match_outcome 32 (p1.current_elo : ℝ) (p2.current_elo : ℝ)
        (p3.current_elo : ℝ) (p4.current_elo : ℝ) (decide (wt = 1))).team1_change)
      ((calculate_match_outcome 32 (p1.current_elo : ℝ) (p2.current_elo : ℝ)
        (p3.current_elo : ℝ) (p4.current_elo : ℝ) (decide (wt = 1))).team2_change)
      (decide (wt = 1)) (!decide (wt = 1)) db.nextMatchId
      { db with matchList := db.matchList ++ [(commitMatch 32 p1 p2 p3 p4 wt d s1 s2 db).1], nextMatchId := db.nextMatchId + 1 }
      ((commitMatch 32 p1 p2 p3 p4 wt d s1 s2 db).2)
      rfl hm1 hm2 hm3 hm4 hi12 hi13 hi14 hi23 hi24 hi34 hnd hlt hgeq hrep hhist
  rw [hdb']
  refine ⟨nd4, lt4, geq4, rep4, hist4, sum4, p1, p2, p3, p4, hg1, hg2, hg3, hg4,
    ?_, ?_, ?_, ?_⟩ <;>
    by_cases hwt1 : wt = 1 <;>
      simp [hwt1] at f1 f2 f3 f4 ⊢ <;>
      first
        | exact f1
        | exact f2
        | exact f3
        | exact f4

/-- Every store reachable through the service operations satisfies the id,
aggregate and replay invariants. -/
theorem reachable_inv (init : Int) (db : DB) (h : Reachable init db) :
    IdsNodup db ∧ IdsLt db ∧ GamesEq db ∧ ReplayOk init db ∧
    (∀ rc ∈ db.history, rc.player_id < db.nextPlayerId) := by
  induction h with
  | empty =>
    refine ⟨?_, ?_, ?_, ?_, ?_⟩ <;>
      simp [IdsNodup, IdsLt, GamesEq, ReplayOk, DB.empty]
  | add_step db name p db' hre hok ih =>
    obtain ⟨hnone, hp, hdb'⟩ := add_player_ok_elim hok
    obtain ⟨nd, lt, geq, rep, hist⟩ := ih
    subst hdb'
    refine ⟨?_, ?_, ?_, ?_, ?_⟩
    · show ((db.players ++ [p]).map Player.player_id).Nodup
      rw [List.map_append]
      simp only [List.map_cons, List.map_nil]
      rw [List.nodup_append]
      refine ⟨nd, List.nodup_singleton _, ?_⟩
      intro i hi hip
      rw [List.mem_singleton] at hip
      obtain ⟨q, hq, rfl⟩ := List.mem_map.mp hi
      have := lt q hq
      rw [hip, hp] at this
      simp at this
    · intro q hq
      show q.player_id < db.nextPlayerId + 1
      rcases List.mem_append.mp hq with hq' | hq'
      · exact Nat.lt_succ_of_lt (lt q hq')
      · rw [List.mem_singleton] at hq'
        subst hq'
        rw [hp]
        exact Nat.lt_succ_self _
    · intro q hq
      rcases List.mem_append.mp hq with hq' | hq'
      · exact geq q hq'
      · rw [List.mem_singleton] at hq'
        subst hq'
        rw [hp]
        rfl
    · intro q hq
      rcases List.mem_append.mp hq with hq' | hq'
      · exact rep q hq'
      · rw [List.mem_singleton] at hq'
        subst hq'
        have hfil : db.history.filter (fun rc => rc.player_id = q.player_id) = [] := by
          rw [List.filter_eq_nil_iff]
          intro rc hrc
          have := hist rc hrc
          rw [hp]
          simp only [decide_eq_true_eq]
          omega
        show replayFinal init (playerHistoryChron _ q.player_id) = q.current_elo
        unfold playerHistoryChron
        show replayFinal init (db.history.filter (fun rc => rc.player_id = q.player_id)) = _
        rw [hfil, hp]
        rfl
    · intro rc hrc
      exact Nat.lt_succ_of_lt (hist rc hrc)
  | record_step db n1 n2 n3 n4 wt d s1 s2 m db' hre hok ih =>
    obtain ⟨nd, lt, geq, rep, hist⟩ := ih
    obtain ⟨nd', lt', geq', rep', hist', -, -⟩ :=
      record_match_pres init hok nd lt geq rep hist
    exact ⟨nd', lt', geq', rep', hist'⟩

/-- Claim C3: in every reachable store, replaying any player's history ledger
in chronological order from the configured initial rating (taking the
`new_rating` of the last record) reproduces the player's stored current
rating exactly. -/
theorem claim_C3_replay_roundtrip (init : Int) (db : DB) (h : Reachable init db) :
    ∀ p ∈ db.players,
      replayFinal init (playerHistoryChron db p.player_id) = p.current_elo :=
  (reachable_inv init db h).2.2.2.1

/-- Claim C6: a successful `record_match` on a reachable store keeps
`games_played = wins + losses` for every stored player, raises the total
game count by exactly 4, and gives each of the four participants exactly one
more game and exactly one more win (winning team) or loss (losing team). -/
theorem claim_C6_games_consistency (init : Int) (n1 n2 n3 n4 : String)
    (wt : Int) (d : String) (s1 s2 : Option Int) (db db' : DB) (m : Match)
    (hre : Reachable init db)
    (h : record_match 32 n1 n2 n3 n4 wt d s1 s2 db = (.ok m, db')) :
    (∀ q ∈ db'.players, q.games_played = q.wins + q.losses) ∧
    sumGames db'.players = sumGames db.players + 4 ∧
    ∃ p1 p2 p3 p4, get_by_name n1 db = some p1 ∧ get_by_name n2 db = some p2 ∧
      get_by_name n3 db = some p3 ∧ get_by_name n4 db = some p4 ∧
      (∃ q ∈ db'.players, q.player_id = p1.player_id ∧
        q.games_played = p1.games_played + 1 ∧
        q.wins = (if wt = 1 then p1.wins + 1 else p1.wins) ∧
        q.losses = (if wt = 1 then p1.losses else p1.losses + 1)) ∧
      (∃ q ∈ db'.players, q.player_id = p2.player_id ∧
        q.games_played = p2.games_played + 1 ∧
        q.wins = (if wt = 1 then p2.wins + 1 else p2.wins) ∧
        q.losses = (if wt = 1 then p2.losses else p2.losses + 1)) ∧
      (∃ q ∈ db'.players, q.player_id = p3.player_id ∧
        q.games_played = p3.games_played + 1 ∧
        q.wins = (if wt = 1 then p3.wins else p3.wins + 1) ∧
        q.losses = (if wt = 1 then p3.losses + 1 else p3.losses)) ∧
      (∃ q ∈ db'.players, q.player_id = p4.player_id ∧
        q.games_played = p4.games_played + 1 ∧
        q.wins = (if wt = 1 then p4.wins else p4.wins + 1) ∧
        q.losses = (if wt = 1 then p4.losses + 1 else p4.losses)) := by
  obtain ⟨nd, lt, geq, rep, hist⟩ := reachable_inv init db hre
  obtain ⟨-, -, geq', -, -, hsum, hparts⟩ := record_match_pres init h nd lt geq rep hist
  exact ⟨geq', hsum, hparts⟩

/-- At equal team ratings the exponent vanishes. -/
theorem exponent_1500 :
    ((calculate_team_rating (1500:ℝ) 1500 - calculate_team_rating (1500:ℝ) 1500) / 400) = 0 := by
  unfold calculate_team_rating
  ring

/-- Winning delta at equal 1500 ratings under `k = 32` is exactly 16. -/
theorem team1_change_1500 :
    (calculate_match_outcome 32 (1500:ℝ) 1500 1500 1500 true).team1_change = 16 := by
  rw [calculate_match_outcome_team1_change, exponent_1500, Real.rpow_zero]
  norm_num

/-- Losing delta at equal 1500 ratings under `k = 32` is exactly `-16`. -/
theorem team2_change_1500 :
    (calculate_match_outcome 32 (1500:ℝ) 1500 1500 1500 true).team2_change = -16 := by
  rw [calculate_match_outcome_team2_change, exponent_1500, Real.rpow_zero]
  norm_num

/-- Average pre-match rating of team 1 in the all-1500 scenario. -/
theorem team1_rating_1500 :
    (calculate_match_outcome 32 (1500:ℝ) 1500 1500 1500 true).team1_rating = 1500 := by
  rw [calculate_match_outcome_team1_rating]
  unfold calculate_team_rating
  norm_num

/-- Average pre-match rating of team 2 in the all-1500 scenario. -/
theorem team2_rating_1500 :
    (calculate_match_outcome 32 (1500:ℝ) 1500 1500 1500 true).team2_rating = 1500 := by
  rw [calculate_match_outcome_team2_rating]
  unfold calculate_team_rating
  norm_num

/-- Rounding the concrete values of the all-1500 scenario. -/
theorem pyRound_1500 : pyRound (1500 : ℝ) = 1500 := by
  rw [show (1500:ℝ) = ((1500:ℤ) : ℝ) by norm_num]
  exact pyRound_intCast 1500

/-- Rounding the winner's new rating. -/
theorem pyRound_1516 : pyRound ((1500 : ℝ) + 16) = 1516 := by
  rw [show (1500:ℝ) + 16 = ((1516:ℤ) : ℝ) by norm_num]
  exact pyRound_intCast 1516

/-- Rounding the loser's new rating. -/
theorem pyRound_1484 : pyRound ((1500 : ℝ) + -16) = 1484 := by
  rw [show (1500:ℝ) + -16 = ((1484:ℤ) : ℝ) by norm_num]
  exact pyRound_intCast 1484

/-- Rounding the winner's delta. -/
theorem pyRound_16 : pyRound (16 : ℝ) = 16 := by
  rw [show (16:ℝ) = ((16:ℤ) : ℝ) by norm_num]
  exact pyRound_intCast 16

/-- Rounding the loser's delta. -/
theorem pyRound_neg16 : pyRound (-16 : ℝ) = -16 := by
  rw [show (-16:ℝ) = ((-16:ℤ) : ℝ) by norm_num]
  exact pyRound_intCast (-16)

/-- Rounding the winner's new rating as a folded numeral. -/
theorem pyRound_1516' : pyRound (1516 : ℝ) = 1516 := by
  rw [show (1516:ℝ) = ((1516:ℤ) : ℝ) by norm_num]
  exact pyRound_intCast 1516

/-- Rounding the loser's new rating as a folded numeral. -/
theorem pyRound_1484' : pyRound (1484 : ℝ) = 1484 := by
  rw [show (1484:ℝ) = ((1484:ℤ) : ℝ) by norm_num]
  exact pyRound_intCast 1484

/-- Committing the all-1500 example match produces exactly `m0` and `db0'`. -/
theorem commitMatch_db0 :
    commitMatch 32 ⟨0, "A", 1500, 0, 0, 0⟩ ⟨1, "B", 1500, 0, 0, 0⟩
      ⟨2, "C", 1500, 0, 0, 0⟩ ⟨3, "D", 1500, 0, 0, 0⟩ 1 "2025-01-01"
      none none db0 = (m0, db0') := by
  simp only [commitMatch, applyPlayerUpdate, match_create, history_create,
    player_update, db0, m0, db0']
  norm_num [team1_change_1500, team2_change_1500, team1_rating_1500,
    team2_rating_1500, pyRound_1500, pyRound_1516, pyRound_1484, pyRound_16,
    pyRound_neg16, pyRound_1516', pyRound_1484']

/-- Recording the all-1500 example match on `db0` succeeds with `m0` and
`db0'`. -/
theorem record_match_db0 :
    record_match 32 "A" "B" "C" "D" 1 "2025-01-01" none none db0 =
      (.ok m0, db0') := by
  have hval1 : ¬¬((1:ℤ) = 1 ∨ (1:ℤ) = 2) := by decide
  have hval2 : ¬¬(["A", "B", "C", "D"].Nodup) := by decide
  have hA : get_by_name "A" db0 = some ⟨0, "A", 1500, 0, 0, 0⟩ := by rfl
  have hB : get_by_name "B" db0 = some ⟨1, "B", 1500, 0, 0, 0⟩ := by rfl
  have hC : get_by_name "C" db0 = some ⟨2, "C", 1500, 0, 0, 0⟩ := by rfl
  have hD : get_by_name "D" db0 = some ⟨3, "D", 1500, 0, 0, 0⟩ := by rfl
  unfold record_match
  rw [if_neg hval1, if_neg hval2, hA, hB, hC, hD]
  simp only [commitMatch_db0]

/-- Store `db0` arises from the empty store by four `add_player` calls. -/
theorem reachable_db0 : Reachable 1500 db0 := by
  have h1 : add_player 1500 "A" DB.empty = (.ok ⟨0, "A", 1500, 0, 0, 0⟩,
      { players := [⟨0, "A", 1500, 0, 0, 0⟩], matchList := [], history := [],
        nextPlayerId := 1, nextMatchId := 0, nextHistoryId := 0 }) := by rfl
  have h2 : add_player 1500 "B"
      { players := [⟨0, "A", 1500, 0, 0, 0⟩], matchList := [], history := [],
        nextPlayerId := 1, nextMatchId := 0, nextHistoryId := 0 } =
      (.ok ⟨1, "B", 1500, 0, 0, 0⟩,
      { players := [⟨0, "A", 1500, 0, 0, 0⟩, ⟨1, "B", 1500, 0, 0, 0⟩],
        matchList := [], history := [],
        nextPlayerId := 2, nextMatchId := 0, nextHistoryId := 0 }) := by rfl
  have h3 : add_player 1500 "C"
      { players := [⟨0, "A", 1500, 0, 0, 0⟩, ⟨1, "B", 1500, 0, 0, 0⟩],
        matchList := [], history := [],
        nextPlayerId := 2, nextMatchId := 0, nextHistoryId := 0 } =
      (.ok ⟨2, "C", 1500, 0, 0, 0⟩,
      { players := [⟨0, "A", 1500, 0, 0, 0⟩, ⟨1, "B", 1500, 0, 0, 0⟩,
          ⟨2, "C", 1500, 0, 0, 0⟩], matchList := [], history := [],
        nextPlayerId := 3, nextMatchId := 0, nextHistoryId := 0 }) := by rfl
  have h4 : add_player 1500 "D"
      { players := [⟨0, "A", 1500, 0, 0, 0⟩, ⟨1, "B", 1500, 0, 0, 0⟩,
          ⟨2, "C", 1500, 0, 0, 0⟩], matchList := [], history := [],
        nextPlayerId := 3, nextMatchId := 0, nextHistoryId := 0 } =
      (.ok ⟨3, "D", 1500, 0, 0, 0⟩, db0) := by rfl
  exact Reachable.add_step _ "D" _ db0
    (Reachable.add_step _ "C" _ _
      (Reachable.add_step _ "B" _ _
        (Reachable.add_step _ "A" _ _ Reachable.empty h1) h2) h3) h4

/-- Store `db0'` arises from `db0` by recording the example match. -/
theorem reachable_db0' : Reachable 1500 db0' :=
  Reachable.record_step db0 "A" "B" "C" "D" 1 "2025-01-01" none none m0 db0'
    reachable_db0 record_match_db0

/-- Claim C1 witness: the four history rows of the example match each satisfy
`new_rating = old_rating + rating_change`. -/
theorem claim_C1_witness :
    ∃ l, db0'.history = db0.history ++ l ∧ l.length = 4 ∧
      ∀ rc ∈ l, rc.new_rating = rc.old_rating + rc.rating_change :=
  claim_C1_rating_change_additive "A" "B" "C" "D" 1 "2025-01-01" none none
    db0 db0' m0 record_match_db0

/-- Claim C2 witness: an invalid winning team is rejected first (even with a
duplicated name present) and the store is untouched. -/
theorem claim_C2_witness :
    record_match 32 "A" "A" "C" "D" 3 "2025-01-01" none none db0 =
      (.error "winning_team must be 1 or 2", db0) :=
  (claim_C2_validation_order 32 "A" "A" "C" "D" 3 "2025-01-01" none none db0).1
    (by decide)

/-- Claim C3 witness: replaying player 0's ledger after the example match
reproduces the stored rating 1516. -/
theorem claim_C3_witness :
    replayFinal 1500 (playerHistoryChron db0' 0) = 1516 :=
  claim_C3_replay_roundtrip 1500 db0' reachable_db0' ⟨0, "A", 1516, 1, 1, 0⟩
    (by decide)

/-- Claim C6 witness: the example match adds four games in total. -/
theorem claim_C6_witness : sumGames db0'.players = sumGames db0.players + 4 :=
  (claim_C6_games_consistency 1500 "A" "B" "C" "D" 1 "2025-01-01" none none
    db0 db0' m0 reachable_db0 record_match_db0).2.1

/-- Claim C7 witness: re-adding "A" fails with the duplicate error and leaves
the store unchanged. -/
theorem claim_C7_witness :
    add_player 1500 "A" db0 = (.error "Player 'A' already exists", db0) :=
  (claim_C7_add_player 1500 "A" db0).1 (by decide)

/-- Claim C9 witness: the example match has no recorded scores, so its score
string is the `"N/A"` sentinel. -/
theorem claim_C9_witness : match_score m0 = some "N/A" :=
  (claim_C9_match_score_winner_first 32 "A" "B" "C" "D" 1 "2025-01-01" none
    none db0 db0' m0 record_match_db0).2 (Or.inl (by decide))

/-- Claim C10 witness: querying history for an unknown name raises the
player-not-found error. -/
theorem claim_C10_witness :
    get_player_history "Z" 10 db0 = .error "Player 'Z' not found" :=
  (claim_C10_history_lookup "Z" 10 db0).1 (by decide)
